import Mathlib

/-!
Shallow embedding of `0x02-redis_basic/exercise.py`.

The Python module defines a `Cache` class over a Redis connection
(`store`, `get`, `get_str`, `get_int`) and a `call_history` decorator that
records, for each invocation of the wrapped method, a text serialization of
the positional arguments (excluding the instance) under the list key
`"<qualname>:inputs"` and the text serialization of the result under
`"<qualname>:outputs"`.  At module load, `Cache.store` is replaced by
`call_history(Cache.store)`.

The external store is modelled from the contract the code relies on:
`SET` overwrites a key with a byte string, `GET` returns the byte string or
absent (and errors on a list-typed key), `RPUSH` appends to a list (and
errors on a string-typed key), `FLUSHDB` wipes the namespace.  Byte strings
are modelled as lists of characters.  The `uuid4` stream is modelled as an
explicit supply `Nat → String` with a cursor, threaded through the world
state.  Floating-point values, accepted by `store` in Python, are not
modelled (no claim concerns them and floats are not kernel-evaluable).
-/

namespace RedisBasic

/-- Byte strings held by the external store, modelled as lists of characters. -/
abbrev Bytes := List Char

/-- Decimal digit character for a digit value 0–9 (used by Python `str` on ints). -/
def digitToChar (d : Nat) : Char :=
  if d = 0 then '0' else if d = 1 then '1' else if d = 2 then '2'
  else if d = 3 then '3' else if d = 4 then '4' else if d = 5 then '5'
  else if d = 6 then '6' else if d = 7 then '7' else if d = 8 then '8'
  else '9'

/-- Digit value of a decimal digit character, `none` on anything else
(used by Python `int` parsing). -/
def charToDigit (c : Char) : Option Nat :=
  if c = '0' then some 0 else if c = '1' then some 1 else if c = '2' then some 2
  else if c = '3' then some 3 else if c = '4' then some 4 else if c = '5' then some 5
  else if c = '6' then some 6 else if c = '7' then some 7 else if c = '8' then some 8
  else if c = '9' then some 9 else none

/-- Decimal text of a natural number, as produced by Python `str`. -/
def encodeNat (n : Nat) : Bytes :=
  if n = 0 then ['0'] else ((Nat.digits 10 n).map digitToChar).reverse

/-- Decimal text of an integer, as produced by Python `str` (minus sign for
negative values). -/
def encodeInt : Int → Bytes
  | Int.ofNat m => encodeNat m
  | Int.negSucc k => '-' :: encodeNat (k + 1)

/-- Accumulating decimal parser over a run of digit characters; fails on the
first non-digit. -/
def parseDigits (acc : Nat) : Bytes → Option Nat
  | [] => some acc
  | c :: cs =>
    match charToDigit c with
    | some d => parseDigits (acc * 10 + d) cs
    | none => none

/-- Parse a non-empty all-digit string as a natural number. -/
def parseNat (l : Bytes) : Option Nat :=
  if l.isEmpty then none else parseDigits 0 l

/-- Python `int` applied to a byte string: an optional sign followed by a
non-empty digit run (the fragment of `int` the code can encounter). -/
def parseInt (l : Bytes) : Option Int :=
  match l with
  | [] => none
  | c :: cs =>
    if c = '-' then (parseNat cs).map (fun n => -(n : Int))
    else if c = '+' then (parseNat cs).map (fun n => (n : Int))
    else (parseNat (c :: cs)).map (fun n => (n : Int))

theorem charToDigit_digitToChar (d : Nat) (h : d < 10) :
    charToDigit (digitToChar d) = some d := by
  interval_cases d <;> decide

theorem digitToChar_ne_dash (d : Nat) (h : d < 10) : digitToChar d ≠ '-' := by
  interval_cases d <;> decide

theorem digitToChar_ne_plus (d : Nat) (h : d < 10) : digitToChar d ≠ '+' := by
  interval_cases d <;> decide

theorem parseDigits_map (ds : List Nat) (acc : Nat) (h : ∀ d ∈ ds, d < 10) :
    parseDigits acc (ds.map digitToChar)
      = some (ds.foldl (fun a d => a * 10 + d) acc) := by
  induction ds generalizing acc with
  | nil => rfl
  | cons d ds ih =>
    have hd : d < 10 := h d (by simp)
    simp only [List.map_cons, parseDigits, charToDigit_digitToChar d hd, List.foldl_cons]
    exact ih _ (fun x hx => h x (by simp [hx]))

theorem foldr_eq_ofDigits (L : List Nat) :
    L.foldr (fun d a => a * 10 + d) 0 = Nat.ofDigits 10 L := by
  induction L with
  | nil => simp
  | cons d L ih =>
    simp only [List.foldr_cons, ih, Nat.ofDigits_cons]
    ring

theorem encodeNat_ne_nil (n : Nat) : encodeNat n ≠ [] := by
  unfold encodeNat
  by_cases h0 : n = 0
  · simp [h0]
  · simp [h0, Nat.digits_ne_nil_iff_ne_zero]

theorem mem_encodeNat_not_sign (n : Nat) (c : Char) (hc : c ∈ encodeNat n) :
    c ≠ '-' ∧ c ≠ '+' := by
  unfold encodeNat at hc
  by_cases h0 : n = 0
  · simp [h0] at hc
    subst hc
    exact ⟨by decide, by decide⟩
  · simp only [h0, if_neg, ite_false, List.mem_reverse, List.mem_map] at hc
    obtain ⟨d, hd, rfl⟩ := hc
    have hlt : d < 10 := Nat.digits_lt_base (by norm_num) hd
    exact ⟨digitToChar_ne_dash d hlt, digitToChar_ne_plus d hlt⟩

theorem parseNat_encodeNat (n : Nat) : parseNat (encodeNat n) = some n := by
  by_cases h0 : n = 0
  · subst h0; decide
  · have hd : Nat.digits 10 n ≠ [] := Nat.digits_ne_nil_iff_ne_zero.mpr h0
    have hmap : ((Nat.digits 10 n).map digitToChar).reverse
        = ((Nat.digits 10 n).reverse).map digitToChar := by
      simp [List.map_reverse]
    have hne : ¬ ((((Nat.digits 10 n).reverse).map digitToChar).isEmpty = true) := by
      simp [List.isEmpty_iff, hd]
    unfold parseNat encodeNat
    simp only [h0, ite_false, hmap]
    rw [if_neg hne]
    rw [parseDigits_map _ _ (fun d hd' => Nat.digits_lt_base (by norm_num)
      (List.mem_reverse.mp hd'))]
    rw [List.foldl_reverse, foldr_eq_ofDigits, Nat.ofDigits_digits]

theorem parseInt_encodeInt (n : Int) : parseInt (encodeInt n) = some n := by
  cases n with
  | ofNat m =>
    show parseInt (encodeNat m) = some (Int.ofNat m)
    obtain ⟨c, cs, hl⟩ : ∃ c cs, encodeNat m = c :: cs := by
      cases h : encodeNat m with
      | nil => exact absurd h (encodeNat_ne_nil m)
      | cons c cs => exact ⟨c, cs, rfl⟩
    have hmem := mem_encodeNat_not_sign m c (by rw [hl]; exact List.mem_cons_self c cs)
    rw [hl]
    simp only [parseInt, hmem.1, hmem.2, ite_false, if_false]
    rw [← hl, parseNat_encodeNat]
    rfl
  | negSucc k =>
    show parseInt ('-' :: encodeNat (k + 1)) = some (Int.negSucc k)
    simp [parseInt, parseNat_encodeNat, Int.negSucc_eq]

/-- Value held under a Redis key: either a byte string (written by `SET`)
or a list of byte strings (built by `RPUSH`). -/
inductive RVal where
  | str (b : Bytes)
  | list (l : List Bytes)
deriving DecidableEq

/-- State of the external Redis store: the flat key namespace. -/
structure Redis where
  db : String → Option RVal

/-- Failures the embedded fragment can raise: Redis `WRONGTYPE`, Python
`ValueError` (the spec's `FormatError`) and Python `TypeError` on bad
argument binding. -/
inductive Err where
  | wrongType
  | valueError
  | typeError
deriving DecidableEq

/-- Pointwise update of a key namespace. -/
def updFn (f : String → Option RVal) (k : String) (v : RVal) : String → Option RVal :=
  fun q => if q = k then some v else f q

/-- Redis `SET key value`: overwrites the key with a byte string. -/
def Redis.set (r : Redis) (k : String) (v : Bytes) : Redis :=
  ⟨updFn r.db k (RVal.str v)⟩

/-- Redis `GET key`: byte string or absent; `WRONGTYPE` on a list key. -/
def Redis.get (r : Redis) (k : String) : Except Err (Option Bytes) :=
  match r.db k with
  | none => Except.ok none
  | some (RVal.str b) => Except.ok (some b)
  | some (RVal.list _) => Except.error Err.wrongType

/-- Redis `RPUSH key value`: appends to the list at the key, creating it when
absent; `WRONGTYPE` on a string key.  Returns the new length. -/
def Redis.rpush (r : Redis) (k : String) (v : Bytes) : Except Err (Nat × Redis) :=
  match r.db k with
  | some (RVal.str _) => Except.error Err.wrongType
  | some (RVal.list l) =>
    Except.ok ((l ++ [v]).length, ⟨updFn r.db k (RVal.list (l ++ [v]))⟩)
  | none => Except.ok (1, ⟨updFn r.db k (RVal.list [v])⟩)

/-- Redis `FLUSHDB`: wipes every key in the namespace. -/
def Redis.flushdb (_ : Redis) : Redis := ⟨fun _ => none⟩

/-- List currently held at a key: the list value, or `[]` when the key is
absent or holds a string. -/
def Redis.hist (r : Redis) (k : String) : List Bytes :=
  match r.db k with
  | some (RVal.list l) => l
  | _ => []

/-- Whole program state: the Redis store, the `uuid4` stream modelled as a
supply of key strings, and the cursor into that stream. -/
structure World where
  redis : Redis
  supply : Nat → String
  used : Nat

/-- Values `Cache.store` accepts (Python floats are not modelled; no claim
concerns them). -/
inductive Data where
  | str (s : String)
  | bytes (b : Bytes)
  | int (n : Int)
deriving DecidableEq

/-- Byte string the Redis client writes for each accepted value: text is
UTF-8 encoded (identity on the character list in this model), bytes pass
through, integers become their decimal text. -/
def encodeData : Data → Bytes
  | Data.str s => s.data
  | Data.bytes b => b
  | Data.int n => encodeInt n

/-- Values the retrieval methods can hand back to Python callers. -/
inductive PyVal where
  | vstr (s : String)
  | vbytes (b : Bytes)
  | vint (n : Int)
deriving DecidableEq

/-- Cache constructor: connects and issues `FLUSHDB`, wiping the namespace. -/
def Cache.init (w : World) : World :=
  { w with redis := w.redis.flushdb }

/-- Unwrapped `Cache.store`: draw a fresh key from the uuid stream, `SET` it
to the encoded value, return the key. -/
def Cache.store (data : Data) (w : World) : String × World :=
  let key := w.supply w.used
  (key, { w with redis := w.redis.set key (encodeData data), used := w.used + 1 })

/-- Method `Cache.get`: `GET` the key; absent gives `none`; otherwise apply
the optional decode function (which may raise), or return the raw bytes. -/
def Cache.get (key : String) (fn : Option (Bytes → Except Err PyVal)) (w : World) :
    Except Err (Option PyVal) × World :=
  match Redis.get w.redis key with
  | Except.error e => (Except.error e, w)
  | Except.ok none => (Except.ok none, w)
  | Except.ok (some b) =>
    match fn with
    | none => (Except.ok (some (PyVal.vbytes b)), w)
    | some f =>
      match f b with
      | Except.error e => (Except.error e, w)
      | Except.ok v => (Except.ok (some v), w)

/-- Decode function passed by `Cache.get_str`: UTF-8 decode (total in this
character-list model of bytes). -/
def utf8_decode (b : Bytes) : Except Err PyVal :=
  Except.ok (PyVal.vstr (String.mk b))

/-- Decode function passed by `Cache.get_int`: Python `int`, raising
`ValueError` when the bytes are not an integer literal. -/
def pyIntFn (b : Bytes) : Except Err PyVal :=
  match parseInt b with
  | some n => Except.ok (PyVal.vint n)
  | none => Except.error Err.valueError

/-- Method `Cache.get_str`. -/
def Cache.get_str (key : String) (w : World) : Except Err (Option PyVal) × World :=
  Cache.get key (some utf8_decode) w

/-- Method `Cache.get_int`. -/
def Cache.get_int (key : String) (w : World) : Except Err (Option PyVal) × World :=
  Cache.get key (some pyIntFn) w

/-- Single-quote character (code point 39), used by Python `repr` of strings. -/
def sqc : Char := Char.ofNat 39

/-- Single-quote as a one-character string. -/
def sq : String := String.mk [sqc]

/-- Python `repr` of a value, for the argument tuple serialization (strings
are quoted; escaping inside the string is not modelled — the claims only use
quote-free strings). -/
def pyRepr : Data → String
  | Data.str s => sq ++ s ++ sq
  | Data.bytes b => "b" ++ sq ++ String.mk b ++ sq
  | Data.int n => String.mk (encodeInt n)

/-- Python `str` of a tuple of values, as produced by `str(args[1:])` in the
decorator: `()` for the empty tuple, a trailing comma for a 1-tuple. -/
def pyReprTuple : List Data → String
  | [] => "()"
  | [d] => "(" ++ pyRepr d ++ ",)"
  | ds => "(" ++ String.intercalate ", " (ds.map pyRepr) ++ ")"

/-- Python `str` of a method result, as produced by `str(output)` in the
decorator (plain text for strings — no quotes). -/
def pyStr : PyVal → String
  | PyVal.vstr s => s
  | PyVal.vbytes b => "b" ++ sq ++ String.mk b ++ sq
  | PyVal.vint n => String.mk (encodeInt n)

/-- Shape of a Python method taking positional and keyword arguments (the
instance excluded; its state is the world). -/
abbrev Method := List Data → List (String × Data) → World → Except Err PyVal × World

/-- Decorator `call_history`: before invoking the target, `RPUSH` the text of
the positional-argument tuple (instance excluded) onto `"<qualname>:inputs"`;
invoke the target; on success `RPUSH` the text of the result onto
`"<qualname>:outputs"` and return the result; any failure propagates with the
state reached so far. -/
def call_history (qualname : String) (method : Method) : Method :=
  fun pos kw w =>
    match Redis.rpush w.redis (qualname ++ ":inputs") (pyReprTuple pos).data with
    | Except.error e => (Except.error e, w)
    | Except.ok (_, r1) =>
      let w1 : World := { w with redis := r1 }
      match method pos kw w1 with
      | (Except.error e, w2) => (Except.error e, w2)
      | (Except.ok out, w2) =>
        match Redis.rpush w2.redis (qualname ++ ":outputs") (pyStr out).data with
        | Except.error e => (Except.error e, w2)
        | Except.ok (_, r3) => (Except.ok out, { w2 with redis := r3 })

/-- Argument binding of `def store(self, data)`: one positional value, or the
single keyword `data`; anything else is a `TypeError`. -/
def storeMethod : Method :=
  fun pos kw w =>
    match pos, kw with
    | [d], [] =>
      let p := Cache.store d w
      (Except.ok (PyVal.vstr p.1), p.2)
    | [], [(name, d)] =>
      if name = "data" then
        let p := Cache.store d w
        (Except.ok (PyVal.vstr p.1), p.2)
      else (Except.error Err.typeError, w)
    | _, _ => (Except.error Err.typeError, w)

/-- List key recording the inputs of the decorated store method. -/
def inputsKey : String := "Cache.store" ++ ":inputs"

/-- List key recording the outputs of the decorated store method. -/
def outputsKey : String := "Cache.store" ++ ":outputs"

/-- The module-level rebinding `Cache.store = call_history(Cache.store)`. -/
def wrappedStore : Method :=
  call_history "Cache.store" storeMethod

/-- Caller making one wrapped `store` call per value, left to right, stopping
at the first failure and collecting the returned keys. -/
def runStores : List Data → World → Except Err (List PyVal × World)
  | [], w => Except.ok ([], w)
  | v :: vs, w =>
    match wrappedStore [v] [] w with
    | (Except.error e, _) => Except.error e
    | (Except.ok out, w1) =>
      match runStores vs w1 with
      | Except.error e => Except.error e
      | Except.ok (outs, w2) => Except.ok (out :: outs, w2)

/-- Keys the uuid stream will hand to successive store calls, starting at a
given cursor, one per value. -/
def keysFrom (supply : Nat → String) (used : Nat) : List Data → List PyVal
  | [] => []
  | _ :: vs => PyVal.vstr (supply used) :: keysFrom supply (used + 1) vs

/-- A key is safe for `RPUSH`: absent or already a list. -/
def ListOk (r : Redis) (k : String) : Prop :=
  r.db k = none ∨ ∃ l, r.db k = some (RVal.list l)

/-- The uuid stream never collides with the two history keys (true of real
uuid4 text, which contains no colon). -/
def freshSupply (w : World) : Prop :=
  ∀ n, w.supply n ≠ inputsKey ∧ w.supply n ≠ outputsKey

theorem updFn_self (f : String → Option RVal) (k : String) (v : RVal) :
    updFn f k v k = some v := by
  simp [updFn]

theorem updFn_ne (f : String → Option RVal) (k : String) (v : RVal) (q : String)
    (h : q ≠ k) : updFn f k v q = f q := by
  simp [updFn, h]

theorem in_ne_out : inputsKey ≠ outputsKey := by decide

theorem rpush_ok (r : Redis) (k : String) (v : Bytes) (h : ListOk r k) :
    Redis.rpush r k v
      = Except.ok ((Redis.hist r k ++ [v]).length,
          ⟨updFn r.db k (RVal.list (Redis.hist r k ++ [v]))⟩) := by
  rcases h with h | ⟨l, h⟩ <;> simp [Redis.rpush, Redis.hist, h]

/-- World reached by one successful wrapped store call: the inputs list has
gained the serialized positional tuple, the generated key holds the encoded
value, the outputs list has gained the key text, and the uuid cursor has
advanced. -/
def afterStore (pos : List Data) (d : Data) (w : World) : World :=
  { redis := ⟨updFn (updFn (updFn w.redis.db inputsKey
        (RVal.list (Redis.hist w.redis inputsKey ++ [(pyReprTuple pos).data])))
        (w.supply w.used) (RVal.str (encodeData d)))
        outputsKey (RVal.list (Redis.hist w.redis outputsKey ++ [(w.supply w.used).data]))⟩,
    supply := w.supply,
    used := w.used + 1 }

theorem afterStore_db_in (pos : List Data) (d : Data) (w : World)
    (h1 : w.supply w.used ≠ inputsKey) :
    (afterStore pos d w).redis.db inputsKey
      = some (RVal.list (Redis.hist w.redis inputsKey ++ [(pyReprTuple pos).data])) := by
  simp [afterStore, updFn, in_ne_out, Ne.symm h1]

theorem afterStore_db_out (pos : List Data) (d : Data) (w : World) :
    (afterStore pos d w).redis.db outputsKey
      = some (RVal.list (Redis.hist w.redis outputsKey ++ [(w.supply w.used).data])) := by
  simp [afterStore, updFn]

theorem afterStore_db_key (pos : List Data) (d : Data) (w : World)
    (h2 : w.supply w.used ≠ outputsKey) :
    (afterStore pos d w).redis.db (w.supply w.used)
      = some (RVal.str (encodeData d)) := by
  simp [afterStore, updFn, h2]

theorem afterStore_db_other (pos : List Data) (d : Data) (w : World) (k : String)
    (h1 : k ≠ inputsKey) (h2 : k ≠ outputsKey) (h3 : k ≠ w.supply w.used) :
    (afterStore pos d w).redis.db k = w.redis.db k := by
  simp [afterStore, updFn, h1, h2, h3]

theorem hist_eq_of_db_eq (r r' : Redis) (k : String) (h : r'.db k = r.db k) :
    Redis.hist r' k = Redis.hist r k := by
  unfold Redis.hist
  rw [h]

theorem hist_eq_of_db_list (r : Redis) (k : String) (l : List Bytes)
    (h : r.db k = some (RVal.list l)) : Redis.hist r k = l := by
  unfold Redis.hist
  rw [h]

theorem afterStore_hist_in (pos : List Data) (d : Data) (w : World)
    (h1 : w.supply w.used ≠ inputsKey) :
    Redis.hist (afterStore pos d w).redis inputsKey
      = Redis.hist w.redis inputsKey ++ [(pyReprTuple pos).data] :=
  hist_eq_of_db_list _ _ _ (afterStore_db_in pos d w h1)

theorem afterStore_hist_out (pos : List Data) (d : Data) (w : World) :
    Redis.hist (afterStore pos d w).redis outputsKey
      = Redis.hist w.redis outputsKey ++ [(w.supply w.used).data] :=
  hist_eq_of_db_list _ _ _ (afterStore_db_out pos d w)

theorem afterStore_supply (pos : List Data) (d : Data) (w : World) :
    (afterStore pos d w).supply = w.supply := rfl

theorem afterStore_used (pos : List Data) (d : Data) (w : World) :
    (afterStore pos d w).used = w.used + 1 := rfl

theorem afterStore_ListOk_in (pos : List Data) (d : Data) (w : World)
    (h1 : w.supply w.used ≠ inputsKey) :
    ListOk (afterStore pos d w).redis inputsKey :=
  Or.inr ⟨_, afterStore_db_in pos d w h1⟩

theorem afterStore_ListOk_out (pos : List Data) (d : Data) (w : World) :
    ListOk (afterStore pos d w).redis outputsKey :=
  Or.inr ⟨_, afterStore_db_out pos d w⟩

/-- One successful wrapped store call, for any argument binding that reaches
the underlying `Cache.store` with value `d`: the call returns the next key of
the uuid stream and the world steps to `afterStore`. -/
theorem callStore_spec (pos : List Data) (kw : List (String × Data)) (d : Data) (w : World)
    (hm : ∀ w', storeMethod pos kw w'
        = (Except.ok (PyVal.vstr (Cache.store d w').1), (Cache.store d w').2))
    (hf : freshSupply w) (hin : ListOk w.redis inputsKey) (hout : ListOk w.redis outputsKey) :
    wrappedStore pos kw w
      = (Except.ok (PyVal.vstr (w.supply w.used)), afterStore pos d w) := by
  have hkout : outputsKey ≠ w.supply w.used := Ne.symm (hf w.used).2
  unfold wrappedStore call_history
  rw [show ("Cache.store" ++ ":inputs" : String) = inputsKey from rfl]
  rw [show ("Cache.store" ++ ":outputs" : String) = outputsKey from rfl]
  rw [rpush_ok w.redis inputsKey (pyReprTuple pos).data hin]
  dsimp only
  rw [hm]
  dsimp only [Cache.store, Redis.set]
  have hdb2 : updFn (updFn w.redis.db inputsKey
        (RVal.list (Redis.hist w.redis inputsKey ++ [(pyReprTuple pos).data])))
        (w.supply w.used) (RVal.str (encodeData d)) outputsKey
      = w.redis.db outputsKey := by
    rw [updFn_ne _ _ _ _ hkout, updFn_ne _ _ _ _ (Ne.symm in_ne_out)]
  have hok2 : ListOk (⟨updFn (updFn w.redis.db inputsKey
        (RVal.list (Redis.hist w.redis inputsKey ++ [(pyReprTuple pos).data])))
        (w.supply w.used) (RVal.str (encodeData d))⟩ : Redis) outputsKey := by
    unfold ListOk
    dsimp only
    rw [hdb2]
    exact hout
  rw [rpush_ok _ outputsKey (pyStr (PyVal.vstr (w.supply w.used))).data hok2]
  dsimp only
  rw [hist_eq_of_db_eq w.redis (⟨updFn (updFn w.redis.db inputsKey
        (RVal.list (Redis.hist w.redis inputsKey ++ [(pyReprTuple pos).data])))
        (w.supply w.used) (RVal.str (encodeData d))⟩ : Redis) outputsKey hdb2]
  dsimp only [pyStr]
  rfl

/-- Sequences of successful wrapped store calls: each call consumes the next
uuid, appends one serialized-argument entry to the inputs list and one key
entry to the outputs list, in call order. -/
theorem runStores_spec (vs : List Data) (w : World)
    (hf : freshSupply w) (hin : ListOk w.redis inputsKey) (hout : ListOk w.redis outputsKey) :
    ∃ w' : World,
      runStores vs w = Except.ok (keysFrom w.supply w.used vs, w') ∧
      Redis.hist w'.redis inputsKey
        = Redis.hist w.redis inputsKey ++ vs.map (fun v => (pyReprTuple [v]).data) ∧
      Redis.hist w'.redis outputsKey
        = Redis.hist w.redis outputsKey
            ++ (keysFrom w.supply w.used vs).map (fun o => (pyStr o).data) ∧
      w'.supply = w.supply ∧ w'.used = w.used + vs.length := by
  induction vs generalizing w with
  | nil => exact ⟨w, rfl, by simp, by simp [keysFrom], rfl, rfl⟩
  | cons v vs ih =>
    have hstep := callStore_spec [v] [] v w (fun w' => rfl) hf hin hout
    obtain ⟨w', hrun, hi, ho, hs, hu⟩ := ih (afterStore [v] v w) hf
      (afterStore_ListOk_in [v] v w (hf w.used).1)
      (afterStore_ListOk_out [v] v w)
    simp only [afterStore_supply, afterStore_used] at hrun ho hs hu
    refine ⟨w', ?_, ?_, ?_, hs, ?_⟩
    · unfold runStores
      rw [hstep]
      dsimp only
      rw [hrun]
      rfl
    · rw [hi, afterStore_hist_in [v] v w (hf w.used).1]
      simp
    · rw [ho, afterStore_hist_out [v] v w]
      simp [keysFrom, pyStr]
    · rw [hu]
      simp [List.length_cons]
      omega

theorem keysFrom_length (s : Nat → String) (u : Nat) (l : List Data) :
    (keysFrom s u l).length = l.length := by
  induction l generalizing u with
  | nil => rfl
  | cons x xs ih => simp [keysFrom, ih]

/-- Concrete starting world for the witnesses: empty store, uuid stream
constantly `"u"`. -/
def w0 : World := ⟨⟨fun _ => none⟩, fun _ => "u", 0⟩

theorem w0_fresh : freshSupply w0 := by
  intro n
  constructor
  · show ("u" : String) ≠ inputsKey
    decide
  · show ("u" : String) ≠ outputsKey
    decide

/-- Concrete world whose key `"k"` holds the non-numeric text `foo`. -/
def wFoo : World :=
  ⟨⟨fun k => if k = "k" then some (RVal.str ("foo").data) else none⟩, fun _ => "u", 0⟩

/-- Concrete method that always fails with `ValueError`, mutating nothing. -/
def mFail : Method := fun _ _ w => (Except.error Err.valueError, w)

/-- Claim C1: every sequence of N successful wrapped store calls leaves
exactly N entries in the inputs sequence and N in the outputs sequence, and
the entries at position i of both sequences belong to the i-th call (the
i-th serialized argument tuple, the i-th returned key). -/
theorem store_history_pairing (vs : List Data) (w : World)
    (hf : freshSupply w)
    (hin : w.redis.db inputsKey = none) (hout : w.redis.db outputsKey = none) :
    ∃ (outs : List PyVal) (w' : World),
      runStores vs w = Except.ok (outs, w') ∧
      outs.length = vs.length ∧
      Redis.hist w'.redis inputsKey = vs.map (fun v => (pyReprTuple [v]).data) ∧
      Redis.hist w'.redis outputsKey = outs.map (fun o => (pyStr o).data) ∧
      (Redis.hist w'.redis inputsKey).length = vs.length ∧
      (Redis.hist w'.redis outputsKey).length = vs.length := by
  obtain ⟨w', hrun, hi, ho, _, _⟩ := runStores_spec vs w hf (Or.inl hin) (Or.inl hout)
  have hhin : Redis.hist w.redis inputsKey = [] := by
    unfold Redis.hist
    rw [hin]
  have hhout : Redis.hist w.redis outputsKey = [] := by
    unfold Redis.hist
    rw [hout]
  rw [hhin] at hi
  rw [hhout] at ho
  refine ⟨keysFrom w.supply w.used vs, w', hrun, keysFrom_length _ _ _, ?_, ?_, ?_, ?_⟩
  · rw [hi]; simp
  · rw [ho]; simp
  · rw [hi]; simp
  · rw [ho]; simp [keysFrom_length]

theorem store_history_pairing_check :
    ∃ (outs : List PyVal) (w' : World),
      runStores [Data.str "a", Data.int 2] w0 = Except.ok (outs, w') ∧
      outs.length = 2 ∧
      Redis.hist w'.redis inputsKey
        = [Data.str "a", Data.int 2].map (fun v => (pyReprTuple [v]).data) ∧
      Redis.hist w'.redis outputsKey = outs.map (fun o => (pyStr o).data) ∧
      (Redis.hist w'.redis inputsKey).length = 2 ∧
      (Redis.hist w'.redis outputsKey).length = 2 :=
  store_history_pairing [Data.str "a", Data.int 2] w0
    w0_fresh rfl rfl

/-- Claim C2: storing a text value and retrieving the returned key with
`get_str` yields the value back. -/
theorem store_get_str_roundtrip (s : String) (w : World)
    (hf : freshSupply w)
    (hin : ListOk w.redis inputsKey) (hout : ListOk w.redis outputsKey) :
    ∃ w' : World,
      wrappedStore [Data.str s] [] w
        = (Except.ok (PyVal.vstr (w.supply w.used)), w') ∧
      Cache.get_str (w.supply w.used) w'
        = (Except.ok (some (PyVal.vstr s)), w') := by
  refine ⟨afterStore [Data.str s] (Data.str s) w,
    callStore_spec [Data.str s] [] (Data.str s) w (fun w' => rfl) hf hin hout, ?_⟩
  have hget : Redis.get (afterStore [Data.str s] (Data.str s) w).redis (w.supply w.used)
      = Except.ok (some s.data) := by
    unfold Redis.get
    rw [afterStore_db_key [Data.str s] (Data.str s) w (hf w.used).2]
    rfl
  unfold Cache.get_str Cache.get
  rw [hget]
  rfl

theorem store_get_str_roundtrip_check :
    ∃ w' : World,
      wrappedStore [Data.str "foo"] [] w0
        = (Except.ok (PyVal.vstr (w0.supply w0.used)), w') ∧
      Cache.get_str (w0.supply w0.used) w'
        = (Except.ok (some (PyVal.vstr "foo")), w') :=
  store_get_str_roundtrip "foo" w0 w0_fresh
    (Or.inl rfl) (Or.inl rfl)

/-- Claim C3: storing an integer value and retrieving the returned key with
`get_int` yields the value back. -/
theorem store_get_int_roundtrip (n : Int) (w : World)
    (hf : freshSupply w)
    (hin : ListOk w.redis inputsKey) (hout : ListOk w.redis outputsKey) :
    ∃ w' : World,
      wrappedStore [Data.int n] [] w
        = (Except.ok (PyVal.vstr (w.supply w.used)), w') ∧
      Cache.get_int (w.supply w.used) w'
        = (Except.ok (some (PyVal.vint n)), w') := by
  refine ⟨afterStore [Data.int n] (Data.int n) w,
    callStore_spec [Data.int n] [] (Data.int n) w (fun w' => rfl) hf hin hout, ?_⟩
  have hget : Redis.get (afterStore [Data.int n] (Data.int n) w).redis (w.supply w.used)
      = Except.ok (some (encodeInt n)) := by
    unfold Redis.get
    rw [afterStore_db_key [Data.int n] (Data.int n) w (hf w.used).2]
    rfl
  unfold Cache.get_int Cache.get
  rw [hget]
  dsimp only [pyIntFn]
  rw [parseInt_encodeInt n]

theorem store_get_int_roundtrip_check :
    ∃ w' : World,
      wrappedStore [Data.int (-42)] [] w0
        = (Except.ok (PyVal.vstr (w0.supply w0.used)), w') ∧
      Cache.get_int (w0.supply w0.used) w'
        = (Except.ok (some (PyVal.vint (-42))), w') :=
  store_get_int_roundtrip (-42) w0 w0_fresh
    (Or.inl rfl) (Or.inl rfl)

/-- Claim C4: retrieving an absent key returns the absent sentinel, whatever
decode function was supplied (it is never invoked: the result does not
depend on it), and no error is raised. -/
theorem get_missing_returns_none (key : String)
    (fn : Option (Bytes → Except Err PyVal)) (w : World)
    (h : w.redis.db key = none) :
    Cache.get key fn w = (Except.ok none, w) := by
  unfold Cache.get Redis.get
  rw [h]

theorem get_missing_returns_none_check :
    Cache.get "missing" (some pyIntFn) w0 = (Except.ok none, w0) :=
  get_missing_returns_none "missing" (some pyIntFn) w0 rfl

/-- Claim C5: when the wrapped operation fails, the decorator has already
appended the input entry (and touched nothing else), appends no output
entry, and propagates the failure and the wrapped operation's final state
unchanged. -/
theorem call_history_propagates_failure (q : String) (m : Method)
    (pos : List Data) (kw : List (String × Data)) (w : World)
    (hl : ListOk w.redis (q ++ ":inputs")) :
    ∃ w1 : World,
      Redis.hist w1.redis (q ++ ":inputs")
        = Redis.hist w.redis (q ++ ":inputs") ++ [(pyReprTuple pos).data] ∧
      (∀ k, k ≠ q ++ ":inputs" → w1.redis.db k = w.redis.db k) ∧
      ∀ e wm, m pos kw w1 = (Except.error e, wm) →
        call_history q m pos kw w = (Except.error e, wm) := by
  refine ⟨{ w with redis := ⟨updFn w.redis.db (q ++ ":inputs")
      (RVal.list (Redis.hist w.redis (q ++ ":inputs")
        ++ [(pyReprTuple pos).data]))⟩ }, ?_, ?_, ?_⟩
  · exact hist_eq_of_db_list _ _ _ (updFn_self _ _ _)
  · intro k hk
    exact updFn_ne _ _ _ _ hk
  · intro e wm hm
    unfold call_history
    rw [rpush_ok w.redis (q ++ ":inputs") (pyReprTuple pos).data hl]
    dsimp only
    rw [hm]

theorem call_history_propagates_failure_check :
    ∃ w1 : World,
      Redis.hist w1.redis ("Cache.store" ++ ":inputs")
        = Redis.hist w0.redis ("Cache.store" ++ ":inputs")
            ++ [(pyReprTuple [Data.str "a"]).data] ∧
      (∀ k, k ≠ "Cache.store" ++ ":inputs" → w1.redis.db k = w0.redis.db k) ∧
      ∀ e wm, mFail [Data.str "a"] [] w1 = (Except.error e, wm) →
        call_history "Cache.store" mFail [Data.str "a"] [] w0 = (Except.error e, wm) :=
  call_history_propagates_failure "Cache.store" mFail [Data.str "a"] [] w0 (Or.inl rfl)

/-- Claim C6: when the stored bytes at a key are not a valid integer
literal, `get_int` fails with `ValueError` (the spec's `FormatError`),
surfaced to the caller. -/
theorem get_int_non_numeric_fails (key : String) (w : World) (b : Bytes)
    (hdb : w.redis.db key = some (RVal.str b)) (hbad : parseInt b = none) :
    Cache.get_int key w = (Except.error Err.valueError, w) := by
  unfold Cache.get_int Cache.get Redis.get
  rw [hdb]
  dsimp only [pyIntFn]
  rw [hbad]

theorem get_int_non_numeric_fails_check :
    Cache.get_int "k" wFoo = (Except.error Err.valueError, wFoo) :=
  get_int_non_numeric_fails "k" wFoo (("foo").data) (by decide) (by decide)

/-- Claim C7: wrapped `store("a")` then `store("b")` from fresh history
records inputs `("a",)-style serialized tuples` in order and outputs the two
returned keys in order. -/
theorem store_ab_scenario (w : World)
    (hf : freshSupply w)
    (hin : w.redis.db inputsKey = none) (hout : w.redis.db outputsKey = none) :
    ∃ w' : World,
      runStores [Data.str "a", Data.str "b"] w
        = Except.ok ([PyVal.vstr (w.supply w.used),
            PyVal.vstr (w.supply (w.used + 1))], w') ∧
      Redis.hist w'.redis inputsKey
        = [("(" ++ sq ++ "a" ++ sq ++ ",)").data,
           ("(" ++ sq ++ "b" ++ sq ++ ",)").data] ∧
      Redis.hist w'.redis outputsKey
        = [(w.supply w.used).data, (w.supply (w.used + 1)).data] := by
  obtain ⟨w', hrun, hi, ho, _, _⟩ :=
    runStores_spec [Data.str "a", Data.str "b"] w hf (Or.inl hin) (Or.inl hout)
  have hhin : Redis.hist w.redis inputsKey = [] := by
    unfold Redis.hist
    rw [hin]
  have hhout : Redis.hist w.redis outputsKey = [] := by
    unfold Redis.hist
    rw [hout]
  refine ⟨w', ?_, ?_, ?_⟩
  · rw [hrun]
    rfl
  · rw [hi, hhin]
    decide
  · rw [ho, hhout]
    rfl

theorem store_ab_scenario_check :
    ∃ w' : World,
      runStores [Data.str "a", Data.str "b"] w0
        = Except.ok ([PyVal.vstr (w0.supply w0.used),
            PyVal.vstr (w0.supply (w0.used + 1))], w') ∧
      Redis.hist w'.redis inputsKey
        = [("(" ++ sq ++ "a" ++ sq ++ ",)").data,
           ("(" ++ sq ++ "b" ++ sq ++ ",)").data] ∧
      Redis.hist w'.redis outputsKey
        = [(w0.supply w0.used).data, (w0.supply (w0.used + 1)).data] :=
  store_ab_scenario w0 w0_fresh rfl rfl

/-- Claim C8: after the constructor's flush, no key is retrievable — every
retrieval returns the absent sentinel regardless of decode function. -/
theorem init_clears_namespace (w : World) (key : String)
    (fn : Option (Bytes → Except Err PyVal)) :
    Cache.get key fn (Cache.init w) = (Except.ok none, Cache.init w) := rfl

/-- Claim C9: the three retrieval methods leave the world (in particular the
external store) unchanged in every branch, while a store call writes the
encoded value under the generated key and advances the uuid cursor. -/
theorem getters_pure_store_mutates (key : String)
    (fn : Option (Bytes → Except Err PyVal)) (w : World) (d : Data) :
    (Cache.get key fn w).2 = w ∧
    (Cache.get_str key w).2 = w ∧
    (Cache.get_int key w).2 = w ∧
    (Cache.store d w).2.redis.db (Cache.store d w).1
      = some (RVal.str (encodeData d)) ∧
    (Cache.store d w).2.used = w.used + 1 := by
  have hget2 : ∀ fn2, (Cache.get key fn2 w).2 = w := by
    intro fn2
    unfold Cache.get
    split
    · rfl
    · rfl
    · split
      · rfl
      · split
        · rfl
        · rfl
  exact ⟨hget2 fn, hget2 _, hget2 _, updFn_self _ _ _, rfl⟩

/-- Claim C10: calling the wrapped store with the value as the keyword
argument `data` still stores the value and records the output key, but the
recorded inputs entry is the serialization of the empty tuple. -/
theorem store_kwarg_recorded_empty (d : Data) (w : World)
    (hf : freshSupply w)
    (hin : ListOk w.redis inputsKey) (hout : ListOk w.redis outputsKey) :
    wrappedStore [] [("data", d)] w
        = (Except.ok (PyVal.vstr (w.supply w.used)), afterStore [] d w) ∧
      Redis.hist (afterStore [] d w).redis inputsKey
        = Redis.hist w.redis inputsKey ++ [("()").data] ∧
      Redis.hist (afterStore [] d w).redis outputsKey
        = Redis.hist w.redis outputsKey ++ [(w.supply w.used).data] ∧
      (afterStore [] d w).redis.db (w.supply w.used)
        = some (RVal.str (encodeData d)) := by
  refine ⟨callStore_spec [] [("data", d)] d w (fun w' => rfl) hf hin hout,
    ?_, afterStore_hist_out [] d w, afterStore_db_key [] d w (hf w.used).2⟩
  rw [afterStore_hist_in [] d w (hf w.used).1]
  rfl

theorem store_kwarg_recorded_empty_check :
    wrappedStore [] [("data", Data.int 7)] w0
        = (Except.ok (PyVal.vstr (w0.supply w0.used)), afterStore [] (Data.int 7) w0) ∧
      Redis.hist (afterStore [] (Data.int 7) w0).redis inputsKey
        = Redis.hist w0.redis inputsKey ++ [("()").data] ∧
      Redis.hist (afterStore [] (Data.int 7) w0).redis outputsKey
        = Redis.hist w0.redis outputsKey ++ [(w0.supply w0.used).data] ∧
      (afterStore [] (Data.int 7) w0).redis.db (w0.supply w0.used)
        = some (RVal.str (encodeData (Data.int 7))) :=
  store_kwarg_recorded_empty (Data.int 7) w0 w0_fresh
    (Or.inl rfl) (Or.inl rfl)

end RedisBasic
